import Mathlib

/-!
Shallow embedding of `src/index.ts` of the cric-score-scraper repository:
a scheduled fetch-decode-aggregate-persist pipeline over cricket match
feeds.  JavaScript numbers that the pipeline manipulates are integers
(dot-ball counts, tree counts), embedded as `Int`; JS strings are `String`;
absent (`undefined`) fields are `Option`; the mutable `Map` of team stats
and the mutable D1 database are passed as explicit state.  Impure inputs
(wall-clock timestamps, the network, `JSON.parse`) are parameters.
-/

namespace CricScraper

/-! ## Data model (interfaces `PlayerStats`, `TeamStats`, `MatchData`) -/

structure PlayerStats where
  name : String
  dotBallsBowled : Int
  dotBallsPlayed : Int
  treesBowling : Int
deriving DecidableEq, Repr

structure TeamStats where
  name : String
  totalDotBallsBowled : Int
  totalTreesPlanted : Int
  players : List PlayerStats
deriving DecidableEq, Repr

structure MatchData where
  timestamp : String
  teams : List TeamStats
deriving DecidableEq, Repr

/-- One entry of a `BattingCard` / `BowlingCard` array in a decoded feed
payload, restricted to the fields the pipeline reads.  `Option` models an
absent (`undefined`) field.  TeamID is a JSON number (falsy iff absent or
zero); the name fields are JSON strings (falsy iff absent or empty). -/
structure BowlerEntry where
  TeamID : Option Nat
  PlayerShortName : Option String
  PlayerName : Option String
  PlayerID : Option Nat
  DotBalls : Option String
deriving DecidableEq, Repr

/-- The innings section of a decoded payload (fields the pipeline reads). -/
structure InningsSection where
  BattingCard : Option (List BowlerEntry)
  BowlingCard : Option (List BowlerEntry)
deriving DecidableEq, Repr

/-- A decoded JSONP payload: an object that may carry an `Innings1` and/or
an `Innings2` section. -/
structure Payload where
  Innings1 : Option InningsSection
  Innings2 : Option InningsSection
deriving DecidableEq, Repr

/-! ## JS primitives used by the pipeline -/

/-- The whitespace class JS `parseInt` skips and `\s` (in the ASCII range)
matches: space, tab, newline, carriage return, vertical tab, form feed. -/
def jsWs (c : Char) : Bool :=
  c = ' ' || c = '\t' || c = '\n' || c = '\r' || c = '\x0b' || c = '\x0c'

/-- Numeric value of a string of decimal digits. -/
def natOfDigits (ds : List Char) : Nat :=
  ds.foldl (fun a c => a * 10 + (c.toNat - 48)) 0

/-- JS `parseInt(s)` (radix 10 path): skip leading whitespace, optional
sign, then as many decimal digits as possible; `none` models `NaN` (no
digits).  The hex-prefix (`0x`) branch of `parseInt` is never exercised by
the feed's decimal dot-ball fields and is not modelled. -/
def parseIntJS (s : String) : Option Int :=
  let cs := s.data.dropWhile jsWs
  let signed : Int × List Char :=
    match cs with
    | '-' :: rest => (-1, rest)
    | '+' :: rest => (1, rest)
    | _ => (1, cs)
  match signed.2.takeWhile Char.isDigit with
  | [] => none
  | ds => some (signed.1 * natOfDigits ds)

/-! ## Aggregator (`processMatchData`) -/

/-- `TREES_PER_DOT_BALL` from the source. -/
def TREES_PER_DOT_BALL : Int := 18

/-- `parseInt(bowler.DotBalls) || 0`: absent field or failed parse (NaN)
falls back to 0.  (`|| 0` also maps a parsed 0 to 0, the same value.) -/
def dotBallsOf (b : BowlerEntry) : Int :=
  match b.DotBalls with
  | none => 0
  | some s =>
    match parseIntJS s with
    | none => 0
    | some n => n

/-- `x || fallback` on a JS string: empty or absent is falsy. -/
def jsStrOr (x : Option String) (fallback : String) : String :=
  match x with
  | some s => if s = "" then fallback else s
  | none => fallback

/-- Text of `bowler.PlayerID` inside a template literal: an absent field
prints as "undefined". -/
def playerIdText : Option Nat → String
  | some n => toString n
  | none => "undefined"

/-- `bowler.PlayerShortName || bowler.PlayerName || ` then
`Player` followed by the id. -/
def resolvedName (b : BowlerEntry) : String :=
  jsStrOr b.PlayerShortName (jsStrOr b.PlayerName ("Player" ++ playerIdText b.PlayerID))

/-- `card?.[0]?.TeamID || fallback` then `.toString()`: absent card, empty
card, absent TeamID, or TeamID 0 (falsy) select the fallback. -/
def teamIdOr (card : Option (List BowlerEntry)) (fallback : String) : String :=
  match card with
  | some (e :: _) =>
    match e.TeamID with
    | some n => if n = 0 then fallback else toString n
    | none => fallback
  | _ => fallback

/-- `teamStatsMap` with JS `Map` insertion-order iteration: an
insertion-ordered list of `TeamStats` keyed by `.name`. -/
def ensureTeam (m : List TeamStats) (tid : String) : List TeamStats :=
  if m.any (fun t => t.name = tid) then m
  else m ++ [{ name := tid, totalDotBallsBowled := 0, totalTreesPlanted := 0, players := [] }]

/-- Mutating the map entry for key `tid` through the reference obtained by
`teamStatsMap.get(tid)`. -/
def updateTeam (m : List TeamStats) (tid : String) (f : TeamStats → TeamStats) : List TeamStats :=
  m.map (fun t => if t.name = tid then f t else t)

/-- `team.players.find(p => p.name === n)` followed by in-place mutation
of the found player: update the first entry named `n`, adding `d` dot
balls and `trees` trees. -/
def addToPlayer (n : String) (d trees : Int) : List PlayerStats → List PlayerStats
  | [] => []
  | p :: ps =>
    if p.name = n then
      { p with dotBallsBowled := p.dotBallsBowled + d, treesBowling := p.treesBowling + trees } :: ps
    else p :: addToPlayer n d trees ps

/-- The body of `bowlersData.forEach((bowler) => ...)` restricted to the
bowling team's `TeamStats`: add the entry's dot balls and derived trees to
the team totals, then upsert the player by resolved name. -/
def processBowler (t : TeamStats) (bowler : BowlerEntry) : TeamStats :=
  let bowlerName := resolvedName bowler
  let dotBalls := dotBallsOf bowler
  let treesPlanted := dotBalls * TREES_PER_DOT_BALL
  let t1 := { t with totalDotBallsBowled := t.totalDotBallsBowled + dotBalls,
                     totalTreesPlanted := t.totalTreesPlanted + treesPlanted }
  if t1.players.any (fun p => p.name = bowlerName) then
    { t1 with players := addToPlayer bowlerName dotBalls treesPlanted t1.players }
  else
    { t1 with players := t1.players ++
        [{ name := bowlerName, dotBallsBowled := dotBalls, dotBallsPlayed := 0,
           treesBowling := treesPlanted }] }

/-- One iteration of `inningsDataArray.forEach((data, inningsIndex) => ...)`:
select the `Innings1` section for index 0 and `Innings2` otherwise, skip a
missing section, ensure both team buckets exist, then fold the bowling
card into the bowling team's stats. -/
def processInnings (m : List TeamStats) (inningsIndex : Nat) (data : Payload) : List TeamStats :=
  match (if inningsIndex = 0 then data.Innings1 else data.Innings2) with
  | none => m
  | some inningsData =>
    let battingTeam := teamIdOr inningsData.BattingCard ("Team" ++ toString (inningsIndex * 2 + 1))
    let bowlingTeam := teamIdOr inningsData.BowlingCard ("Team" ++ toString (inningsIndex * 2 + 2))
    let m1 := ensureTeam m battingTeam
    let m2 := ensureTeam m1 bowlingTeam
    (inningsData.BowlingCard.getD []).foldl
      (fun mm bowler => updateTeam mm bowlingTeam (fun t => processBowler t bowler)) m2

/-- `processMatchData`: fold the decoded innings payloads (with their array
indices) over a fresh team map, then list the map's values in insertion
order.  The wall-clock `new Date().toISOString()` is the explicit
`timestamp` parameter. -/
def processMatchData (timestamp : String) (inningsDataArray : List Payload) : MatchData :=
  { timestamp := timestamp,
    teams := inningsDataArray.enum.foldl (fun m p => processInnings m p.1 p.2) [] }

/-! ## Feed Fetcher and Decoder (`buildJsonUrl`, `fetchMatchJson`)

The network and `JSON.parse` are external collaborators, passed as
parameters: `net` maps a URL to its fetch outcome, `parse` maps the JSON
text captured from the JSONP envelope to a decoded payload (`none` models
a `JSON.parse` exception, caught in the source and turned into `null`). -/

/-- Outcome of one `fetch(url, { headers })` call: a network-level
exception, a response with `response.ok` false, or a successful response
with its body text. -/
inductive FetchOutcome where
  | netError : FetchOutcome
  | notOk : FetchOutcome
  | okBody (text : String) : FetchOutcome
deriving DecidableEq, Repr

def buildJsonUrl (matchId : String) : List String :=
  ["https://ipl-stats-sports-mechanic.s3.ap-south-1.amazonaws.com/ipl/feeds/"
     ++ matchId ++ "-Innings1.js",
   "https://ipl-stats-sports-mechanic.s3.ap-south-1.amazonaws.com/ipl/feeds/"
     ++ matchId ++ "-Innings2.js"]

/-- A line terminator, which JS regex `.` (without the `s` flag) does not
match. -/
def isLineTerm (c : Char) : Bool :=
  c = '\n' || c = '\r' || c = ' ' || c = ' '

/-- Can the suffix after the closing paren complete the match, i.e. does
it match `;?\s*` up to the end of input? -/
def tailOk (cs : List Char) : Bool :=
  match cs with
  | [] => true
  | c :: rest => if c = ';' then rest.all jsWs else (c :: rest).all jsWs

/-- Match `(.*)\);?\s*$` against the characters after the opening paren:
the greedy `(.*)` selects the largest `j` such that position `j` holds
`)` with no line terminator before it and a viable tail after it; the
capture is everything before that `)`. -/
def innerMatch (cs : List Char) : Option String :=
  match (List.range cs.length).reverse.find?
      (fun j => cs.getD j ' ' = ')' && (cs.take j).all (fun c => !isLineTerm c)
                  && tailOk (cs.drop (j + 1))) with
  | some j => some (cs.take j).asString
  | none => none

/-- `text.match(/^.*?\((.*)\);?\s*$/)`, returning the first capture group:
the lazy `.*?` selects the smallest opening-paren position (no line
terminator before it) from which the rest of the pattern matches. -/
def jsonpExtract (s : String) : Option String :=
  let cs := s.data
  match (List.range cs.length).find?
      (fun k => cs.getD k ' ' = '(' && (cs.take k).all (fun c => !isLineTerm c)
                  && (innerMatch (cs.drop (k + 1))).isSome) with
  | some k => innerMatch (cs.drop (k + 1))
  | none => none

/-- The per-URL body of `Promise.all(jsonUrls.map(...))`: every failure
path (network error, non-ok status, bad JSONP envelope, `JSON.parse`
exception) is caught and yields `none`; only a fully decoded payload
yields data. -/
def decodeResponse (parse : String → Option Payload) : FetchOutcome → Option Payload
  | FetchOutcome.netError => none
  | FetchOutcome.notOk => none
  | FetchOutcome.okBody text =>
    match jsonpExtract text with
    | none => none
    | some inner => parse inner

/-- `fetchMatchJson`: fetch and decode both innings URLs, filter out the
failed ones, and throw (`Except.error`) exactly when nothing remains. -/
def fetchMatchJson (net : String → FetchOutcome) (parse : String → Option Payload)
    (matchId : String) : Except String (List Payload) :=
  let responses := (buildJsonUrl matchId).map (fun url => decodeResponse parse (net url))
  let validResponses := responses.filterMap id
  if validResponses.isEmpty then
    Except.error ("Failed to fetch any valid data for match " ++ matchId)
  else
    Except.ok validResponses

/-! ## Persistence Adapter (`storeMatchData`)

The D1 database is explicit state: one list of rows per table, in
insertion order, with the SQL upserts translated statement by statement.
(The position a replaced row ends up at inside its table is not observed
by any property below.) -/

structure MatchRow where
  match_id : String
  match_url : String
  match_date : String
  timestamp : String
deriving DecidableEq, Repr

structure TeamRow where
  team_id : String
  team_name : String
deriving DecidableEq, Repr

structure TeamPerfRow where
  match_id : String
  team_id : String
  total_dot_balls_bowled : Int
  total_trees_planted : Int
deriving DecidableEq, Repr

structure PlayerRow where
  player_id : String
  player_name : String
  team_id : String
deriving DecidableEq, Repr

structure PlayerPerfRow where
  match_id : String
  player_id : String
  team_id : String
  dot_balls_bowled : Int
  trees_planted : Int
deriving DecidableEq, Repr

structure SummaryRow where
  team_id : String
  total_trees_planted : Int
  last_updated : String
deriving DecidableEq, Repr

structure Database where
  matchRows : List MatchRow
  teamRows : List TeamRow
  teamPerf : List TeamPerfRow
  playerRows : List PlayerRow
  playerPerf : List PlayerPerfRow
  summary : List SummaryRow
deriving DecidableEq, Repr

/-- `INSERT OR REPLACE`: replace every row sharing the new row's key,
else append. -/
def insertOrReplaceBy {ρ κ : Type} [DecidableEq κ] (key : ρ → κ) (tbl : List ρ) (row : ρ) :
    List ρ :=
  if tbl.any (fun r => key r = key row) then tbl.map (fun r => if key r = key row then row else r)
  else tbl ++ [row]

/-- `INSERT OR IGNORE`: keep the table unchanged when the key is already
present, else append. -/
def insertOrIgnoreBy {ρ κ : Type} [DecidableEq κ] (key : ρ → κ) (tbl : List ρ) (row : ρ) :
    List ρ :=
  if tbl.any (fun r => key r = key row) then tbl else tbl ++ [row]

/-- `INSERT INTO TreePlantingSummary ... ON CONFLICT(team_id) DO UPDATE SET
total_trees_planted = total_trees_planted + ?, last_updated = ?`. -/
def upsertSummary (tbl : List SummaryRow) (tid : String) (v : Int) (ts : String) :
    List SummaryRow :=
  if tbl.any (fun r => r.team_id = tid) then
    tbl.map (fun r =>
      if r.team_id = tid then
        { r with total_trees_planted := r.total_trees_planted + v, last_updated := ts }
      else r)
  else tbl ++ [{ team_id := tid, total_trees_planted := v, last_updated := ts }]

/-- The static `teamNames` table (team id → IPL team name). -/
def teamNames : List (String × String) :=
  [("17", "Mumbai Indians"), ("13", "Chennai Super Kings"),
   ("19", "Royal Challengers Bangalore"), ("18", "Rajasthan Royals"),
   ("16", "Kolkata Knight Riders"), ("15", "Kings XI Punjab"),
   ("14", "Delhi Capitals"), ("20", "Sunrisers Hyderabad"),
   ("35", "Gujarat Titans"), ("77", "Lucknow Super Giants")]

/-- JS `str.split(sep)` for a one-character separator: split at every
occurrence, keeping empty segments (`"".split('/')` is `[""]`). -/
def splitOnChar (sep : Char) : List Char → List (List Char)
  | [] => [[]]
  | c :: cs =>
    let rest := splitOnChar sep cs
    if c = sep then [] :: rest
    else
      match rest with
      | [] => [[c]]
      | r :: rs => (c :: r) :: rs

/-- `extractMatchId`: `url.split('/')`, then the last segment
(`segments[segments.length - 1]`; `split` never returns an empty array). -/
def extractMatchId (url : String) : String :=
  ((splitOnChar '/' url.data).getLastD []).asString

/-- `player.name.replace(/\s+/g, '_')`: each maximal run of whitespace
becomes a single underscore.  The flag records whether the previous
character was part of a whitespace run already replaced. -/
def squashWsAux : Bool → List Char → List Char
  | _, [] => []
  | inWs, c :: cs =>
    if jsWs c then
      if inWs then squashWsAux true cs else '_' :: squashWsAux true cs
    else c :: squashWsAux false cs

def sanitizeName (s : String) : String :=
  (squashWsAux false s.data).asString

/-- The per-player body of `for (const player of team.players)`. -/
def storePlayer (matchId teamId : String) (db : Database) (player : PlayerStats) : Database :=
  let playerId := teamId ++ "_" ++ sanitizeName player.name
  let idRow : PlayerRow := { player_id := playerId, player_name := player.name, team_id := teamId }
  let perfRow : PlayerPerfRow :=
    { match_id := matchId, player_id := playerId, team_id := teamId,
      dot_balls_bowled := player.dotBallsBowled, trees_planted := player.treesBowling }
  { db with playerRows := insertOrIgnoreBy PlayerRow.player_id db.playerRows idRow,
            playerPerf := insertOrReplaceBy (fun r => (r.match_id, r.player_id)) db.playerPerf perfRow }

/-- The per-team body of `for (const team of matchData.teams)`. -/
def storeTeam (matchId ts : String) (db : Database) (team : TeamStats) : Database :=
  let teamId := team.name
  let teamName := (teamNames.lookup teamId).getD teamId
  let idRow : TeamRow := { team_id := teamId, team_name := teamName }
  let perfRow : TeamPerfRow :=
    { match_id := matchId, team_id := teamId,
      total_dot_balls_bowled := team.totalDotBallsBowled,
      total_trees_planted := team.totalTreesPlanted }
  let db3 :=
    { db with teamRows := insertOrIgnoreBy TeamRow.team_id db.teamRows idRow,
              teamPerf := insertOrReplaceBy (fun r => (r.match_id, r.team_id)) db.teamPerf perfRow,
              summary := upsertSummary db.summary teamId team.totalTreesPlanted ts }
  team.players.foldl (storePlayer matchId teamId) db3

/-- `storeMatchData`: upsert the match row, then fold the per-team and
per-player writes over the database state.  `ts` is the
`formatDateTime(getCurrentISTDate())` wall-clock string, used both as
`match_date`/`timestamp` and as `last_updated`. -/
def storeMatchData (matchData : MatchData) (matchUrl : String) (ts : String) (db : Database) :
    Database :=
  let matchId := extractMatchId matchUrl
  let matchRow : MatchRow :=
    { match_id := matchId, match_url := matchUrl, match_date := ts, timestamp := ts }
  let db1 := { db with matchRows := insertOrReplaceBy MatchRow.match_id db.matchRows matchRow }
  matchData.teams.foldl (storeTeam matchId ts) db1

/-- `total_trees_planted` of the (first) `TreePlantingSummary` row for a
team id. -/
def summaryFind (s : List SummaryRow) (tid : String) : Option Int :=
  (s.find? (fun r => r.team_id = tid)).map (fun r => r.total_trees_planted)

/-- First `total_trees_planted` in `TreePlantingSummary` for a team id
(the row a `SELECT ... WHERE team_id = ?` would return). -/
def summaryTotal (db : Database) (tid : String) : Option Int :=
  summaryFind db.summary tid

/-! ## Scheduling Driver (`scheduled`)

The handler's single `try`/`catch` wraps the whole `for (const url of
urls)` loop, so the first per-match exception ends the loop; the `catch`
only logs, so the handler itself always completes.  `skip` models the
daily-dedup query (`true` iff the match id was already recorded today) and
`throwsOn` models whether `processMatchUrl`/`storeMatchData` throws for a
URL.  The result is the list of URLs whose pipeline was actually invoked,
in order. -/

def scheduledRun (skip : String → Bool) (throwsOn : String → Bool) :
    List String → List String
  | [] => []
  | url :: rest =>
    if skip (extractMatchId url) then scheduledRun skip throwsOn rest
    else if throwsOn url then [url]
    else url :: scheduledRun skip throwsOn rest

/-! ## Invariants stated over the data model -/

def playersDotSum (ps : List PlayerStats) : Int :=
  (ps.map PlayerStats.dotBallsBowled).sum

def playersTreeSum (ps : List PlayerStats) : Int :=
  (ps.map PlayerStats.treesBowling).sum

/-- Well-formedness of one aggregated `TeamStats` value: the team totals
are the sums of the players' bowling-side totals, and player names are
pairwise distinct. -/
def teamWF (t : TeamStats) : Prop :=
  t.totalDotBallsBowled = playersDotSum t.players ∧
  t.totalTreesPlanted = playersTreeSum t.players ∧
  (t.players.map PlayerStats.name).Nodup

/-! ## Concrete sample inputs (used by witnesses) -/

def sampleBowlerA : BowlerEntry :=
  { TeamID := some 17, PlayerShortName := some "X", PlayerName := none,
    PlayerID := some 1, DotBalls := some "5" }

def sampleBowlerB : BowlerEntry :=
  { TeamID := some 17, PlayerShortName := some "X", PlayerName := none,
    PlayerID := some 2, DotBalls := some "3" }

def sampleBowlerBad : BowlerEntry :=
  { TeamID := some 17, PlayerShortName := some "Y", PlayerName := none,
    PlayerID := some 3, DotBalls := some "abc" }

def sampleBatter : BowlerEntry :=
  { TeamID := some 13, PlayerShortName := none, PlayerName := none,
    PlayerID := none, DotBalls := none }

def samplePayload : Payload :=
  { Innings1 := some { BattingCard := some [sampleBatter], BowlingCard := some [sampleBowlerA] },
    Innings2 := none }

def sampleInnings2Payload : Payload :=
  { Innings1 := none,
    Innings2 := some { BattingCard := some [sampleBatter], BowlingCard := some [sampleBowlerA] } }

def sampleTeam : TeamStats :=
  { name := "17", totalDotBallsBowled := 0, totalTreesPlanted := 0, players := [] }

def sampleMatchData : MatchData :=
  { timestamp := "ts",
    teams := [{ name := "17", totalDotBallsBowled := 5, totalTreesPlanted := 90,
                players := [{ name := "X", dotBallsBowled := 5, dotBallsPlayed := 0,
                              treesBowling := 90 }] }] }

def emptyDb : Database :=
  { matchRows := [], teamRows := [], teamPerf := [], playerRows := [],
    playerPerf := [], summary := [] }

/-- The team "17" as aggregated from `samplePayload`. -/
def sampleAggTeam : TeamStats :=
  { name := "17", totalDotBallsBowled := 5, totalTreesPlanted := 90,
    players := [{ name := "X", dotBallsBowled := 5, dotBallsPlayed := 0, treesBowling := 90 }] }

/-- A `JSON.parse` model decoding the body text "1" to the sample
innings-2 payload and failing on everything else. -/
def sampleParse : String → Option Payload :=
  fun s => if s = "1" then some sampleInnings2Payload else none

/-- A network where only the Innings2 feed URL of match 1832 responds,
with the JSONP body `cb(1)`. -/
def sampleNet : String → FetchOutcome :=
  fun url =>
    if url = (buildJsonUrl "1832").getD 1 "" then FetchOutcome.okBody "cb(1)"
    else FetchOutcome.netError

/-! ## Lemmas: the aggregator preserves `teamWF` -/

theorem addToPlayer_map_name (n : String) (d tr : Int) (ps : List PlayerStats) :
    (addToPlayer n d tr ps).map PlayerStats.name = ps.map PlayerStats.name := by
  induction ps with
  | nil => rfl
  | cons p ps ih =>
    by_cases h : p.name = n <;> simp [addToPlayer, h, ih]

theorem addToPlayer_dotSum (n : String) (d tr : Int) (ps : List PlayerStats)
    (h : ps.any (fun p => p.name = n) = true) :
    playersDotSum (addToPlayer n d tr ps) = playersDotSum ps + d := by
  induction ps with
  | nil => simp at h
  | cons p ps ih =>
    by_cases hp : p.name = n
    · simp [addToPlayer, hp, playersDotSum]
      ring
    · have h' : ps.any (fun p => p.name = n) = true := by
        simpa [hp] using h
      simp only [addToPlayer, hp, if_false, playersDotSum, List.map_cons, List.sum_cons] at ih ⊢
      rw [ih h']
      ring

theorem addToPlayer_treeSum (n : String) (d tr : Int) (ps : List PlayerStats)
    (h : ps.any (fun p => p.name = n) = true) :
    playersTreeSum (addToPlayer n d tr ps) = playersTreeSum ps + tr := by
  induction ps with
  | nil => simp at h
  | cons p ps ih =>
    by_cases hp : p.name = n
    · simp [addToPlayer, hp, playersTreeSum]
      ring
    · have h' : ps.any (fun p => p.name = n) = true := by
        simpa [hp] using h
      simp only [addToPlayer, hp, if_false, playersTreeSum, List.map_cons, List.sum_cons] at ih ⊢
      rw [ih h']
      ring

theorem processBowler_teamWF (t : TeamStats) (b : BowlerEntry) (h : teamWF t) :
    teamWF (processBowler t b) := by
  obtain ⟨h1, h2, h3⟩ := h
  by_cases hmem : t.players.any (fun p => p.name = resolvedName b) = true
  · have hb : processBowler t b =
        { t with
          totalDotBallsBowled := t.totalDotBallsBowled + dotBallsOf b,
          totalTreesPlanted := t.totalTreesPlanted + dotBallsOf b * TREES_PER_DOT_BALL,
          players := addToPlayer (resolvedName b) (dotBallsOf b)
            (dotBallsOf b * TREES_PER_DOT_BALL) t.players } := by
      simp [processBowler, hmem]
    rw [hb]
    refine ⟨?_, ?_, ?_⟩ <;>
      simp [addToPlayer_dotSum _ _ _ _ hmem, addToPlayer_treeSum _ _ _ _ hmem,
            addToPlayer_map_name, h1, h2, h3]
  · have hnot : ∀ p ∈ t.players, ¬ p.name = resolvedName b := by
      intro p hp hpe
      exact hmem (List.any_eq_true.2 ⟨p, hp, by simp [hpe]⟩)
    have hb : processBowler t b =
        { t with
          totalDotBallsBowled := t.totalDotBallsBowled + dotBallsOf b,
          totalTreesPlanted := t.totalTreesPlanted + dotBallsOf b * TREES_PER_DOT_BALL,
          players := t.players ++
            [{ name := resolvedName b, dotBallsBowled := dotBallsOf b, dotBallsPlayed := 0,
               treesBowling := dotBallsOf b * TREES_PER_DOT_BALL }] } := by
      simp [processBowler, hmem]
    rw [hb]
    refine ⟨?_, ?_, ?_⟩
    · simp [playersDotSum, h1]
    · simp [playersTreeSum, h2]
    · simp only [List.map_append, List.map_cons, List.map_nil]
      rw [List.nodup_append]
      refine ⟨h3, List.nodup_singleton _, ?_⟩
      intro x hx hx1
      simp at hx1
      rcases List.mem_map.1 hx with ⟨p, hp, rfl⟩
      exact hnot p hp hx1

theorem ensureTeam_wf (m : List TeamStats) (tid : String) (h : ∀ t ∈ m, teamWF t) :
    ∀ t ∈ ensureTeam m tid, teamWF t := by
  intro t ht
  unfold ensureTeam at ht
  split at ht
  · exact h t ht
  · rcases List.mem_append.1 ht with h1 | h2
    · exact h t h1
    · simp at h2
      subst h2
      exact ⟨rfl, rfl, List.nodup_nil⟩

theorem updateTeam_wf (m : List TeamStats) (tid : String) (f : TeamStats → TeamStats)
    (hf : ∀ t, teamWF t → teamWF (f t)) (h : ∀ t ∈ m, teamWF t) :
    ∀ t ∈ updateTeam m tid f, teamWF t := by
  intro t ht
  rcases List.mem_map.1 ht with ⟨x, hx, rfl⟩
  by_cases hxe : x.name = tid
  · simpa [hxe] using hf x (h x hx)
  · simpa [hxe] using h x hx

theorem bowlersFold_wf (bs : List BowlerEntry) (tid : String) :
    ∀ m : List TeamStats, (∀ t ∈ m, teamWF t) →
      ∀ t ∈ bs.foldl (fun mm bowler => updateTeam mm tid (fun t => processBowler t bowler)) m,
        teamWF t := by
  induction bs with
  | nil => intro m h; simpa using h
  | cons b bs ih =>
    intro m h
    exact ih _ (updateTeam_wf _ _ _ (fun t ht => processBowler_teamWF t b ht) h)

theorem processInnings_wf (m : List TeamStats) (idx : Nat) (data : Payload)
    (h : ∀ t ∈ m, teamWF t) : ∀ t ∈ processInnings m idx data, teamWF t := by
  unfold processInnings
  split
  · exact h
  · exact bowlersFold_wf _ _ _ (ensureTeam_wf _ _ (ensureTeam_wf _ _ h))

theorem processMatchData_wf (ts : String) (input : List Payload) :
    ∀ t ∈ (processMatchData ts input).teams, teamWF t := by
  suffices hgen : ∀ (pairs : List (Nat × Payload)) (m : List TeamStats), (∀ t ∈ m, teamWF t) →
      ∀ t ∈ pairs.foldl (fun m p => processInnings m p.1 p.2) m, teamWF t by
    exact hgen input.enum [] (by simp)
  intro pairs
  induction pairs with
  | nil => intro m h; simpa using h
  | cons p ps ih =>
    intro m h
    exact ih _ (processInnings_wf _ _ _ h)

theorem find?_addToPlayer (n : String) (d tr : Int) (ps : List PlayerStats) (p : PlayerStats)
    (h : ps.find? (fun q => q.name = n) = some p) :
    (addToPlayer n d tr ps).find? (fun q => q.name = n) =
      some { p with dotBallsBowled := p.dotBallsBowled + d,
                    treesBowling := p.treesBowling + tr } := by
  induction ps with
  | nil => simp at h
  | cons q ps ih =>
    by_cases hq : q.name = n
    · rw [List.find?_cons_of_pos _ (by simp [hq])] at h
      cases h
      simp [addToPlayer, hq, List.find?_cons_of_pos]
    · rw [List.find?_cons_of_neg _ (by simp [hq])] at h
      simp only [addToPlayer, hq, if_false]
      rw [List.find?_cons_of_neg _ (by simp [hq])]
      exact ih h

theorem addToPlayer_append_of_not_mem (n : String) (d tr : Int) (ps qs : List PlayerStats)
    (h : ∀ p ∈ ps, p.name ≠ n) :
    addToPlayer n d tr (ps ++ qs) = ps ++ addToPlayer n d tr qs := by
  induction ps with
  | nil => rfl
  | cons p ps ih =>
    have hp : p.name ≠ n := h p (by simp)
    simp only [List.cons_append, addToPlayer, hp, if_false]
    exact congrArg (fun l => p :: l) (ih (fun q hq => h q (List.mem_cons_of_mem _ hq)))

theorem processBowler_dot (t : TeamStats) (b : BowlerEntry) :
    (processBowler t b).totalDotBallsBowled = t.totalDotBallsBowled + dotBallsOf b := by
  by_cases hmem : t.players.any (fun p => p.name = resolvedName b) = true <;>
    simp [processBowler, hmem]

theorem processBowler_trees (t : TeamStats) (b : BowlerEntry) :
    (processBowler t b).totalTreesPlanted
      = t.totalTreesPlanted + dotBallsOf b * TREES_PER_DOT_BALL := by
  by_cases hmem : t.players.any (fun p => p.name = resolvedName b) = true <;>
    simp [processBowler, hmem]

theorem processBowler_pos_players (t : TeamStats) (b : BowlerEntry)
    (hmem : t.players.any (fun p => p.name = resolvedName b) = true) :
    (processBowler t b).players =
      addToPlayer (resolvedName b) (dotBallsOf b) (dotBallsOf b * TREES_PER_DOT_BALL)
        t.players := by
  simp [processBowler, hmem]

theorem processBowler_neg_players (t : TeamStats) (b : BowlerEntry)
    (hmem : ¬ t.players.any (fun p => p.name = resolvedName b) = true) :
    (processBowler t b).players =
      t.players ++ [{ name := resolvedName b, dotBallsBowled := dotBallsOf b,
                      dotBallsPlayed := 0,
                      treesBowling := dotBallsOf b * TREES_PER_DOT_BALL }] := by
  simp [processBowler, hmem]

/-- C4: for every bowler entry with parsed dot-ball count `d ≥ 0`,
`processBowler` adds exactly `d × 18` trees to the bowling team's total
and to the resolved player's `treesBowling` (and `d` to the dot-ball
totals), whether the player already exists or is freshly inserted. -/
theorem trees_eq_dotballs_times_18 :
    ∀ (t : TeamStats) (b : BowlerEntry),
      0 ≤ dotBallsOf b →
      (processBowler t b).totalDotBallsBowled = t.totalDotBallsBowled + dotBallsOf b ∧
      (processBowler t b).totalTreesPlanted = t.totalTreesPlanted + dotBallsOf b * 18 ∧
      (∀ p, t.players.find? (fun q => q.name = resolvedName b) = some p →
        (processBowler t b).players.find? (fun q => q.name = resolvedName b) =
          some { p with dotBallsBowled := p.dotBallsBowled + dotBallsOf b,
                        treesBowling := p.treesBowling + dotBallsOf b * 18 }) ∧
      (t.players.find? (fun q => q.name = resolvedName b) = none →
        (processBowler t b).players.find? (fun q => q.name = resolvedName b) =
          some { name := resolvedName b, dotBallsBowled := dotBallsOf b, dotBallsPlayed := 0,
                 treesBowling := dotBallsOf b * 18 }) := by
  intro t b _
  refine ⟨processBowler_dot t b, ?_, ?_, ?_⟩
  · rw [processBowler_trees t b]
    simp [TREES_PER_DOT_BALL]
  · intro p hp
    have hpn := List.find?_some hp
    have hmem : t.players.any (fun p => p.name = resolvedName b) = true :=
      List.any_eq_true.2 ⟨p, List.mem_of_find?_eq_some hp, hpn⟩
    rw [processBowler_pos_players t b hmem]
    have := find?_addToPlayer (resolvedName b) (dotBallsOf b)
      (dotBallsOf b * TREES_PER_DOT_BALL) t.players p hp
    simpa [TREES_PER_DOT_BALL] using this
  · intro hnone
    have hmem : ¬ t.players.any (fun p => p.name = resolvedName b) = true := by
      intro hc
      rcases List.any_eq_true.1 hc with ⟨x, hx, hxn⟩
      rw [List.find?_eq_none] at hnone
      exact hnone x hx hxn
    rw [processBowler_neg_players t b hmem]
    rw [List.find?_append, hnone]
    simp [TREES_PER_DOT_BALL]

/-- Witness for C4 at a concrete bowler entry with 5 parsed dot balls. -/
theorem trees_eq_dotballs_times_18_witness :
    (0 : Int) ≤ dotBallsOf sampleBowlerA ∧
    ((processBowler sampleTeam sampleBowlerA).totalDotBallsBowled
        = sampleTeam.totalDotBallsBowled + dotBallsOf sampleBowlerA ∧
     (processBowler sampleTeam sampleBowlerA).totalTreesPlanted
        = sampleTeam.totalTreesPlanted + dotBallsOf sampleBowlerA * 18 ∧
     (∀ p, sampleTeam.players.find? (fun q => q.name = resolvedName sampleBowlerA) = some p →
        (processBowler sampleTeam sampleBowlerA).players.find?
            (fun q => q.name = resolvedName sampleBowlerA) =
          some { p with dotBallsBowled := p.dotBallsBowled + dotBallsOf sampleBowlerA,
                        treesBowling := p.treesBowling + dotBallsOf sampleBowlerA * 18 }) ∧
     (sampleTeam.players.find? (fun q => q.name = resolvedName sampleBowlerA) = none →
        (processBowler sampleTeam sampleBowlerA).players.find?
            (fun q => q.name = resolvedName sampleBowlerA) =
          some { name := resolvedName sampleBowlerA, dotBallsBowled := dotBallsOf sampleBowlerA,
                 dotBallsPlayed := 0, treesBowling := dotBallsOf sampleBowlerA * 18 })) :=
  ⟨by decide, trees_eq_dotballs_times_18 sampleTeam sampleBowlerA (by decide)⟩

/-- C5: in every `MatchData` produced by `processMatchData`, each team's
`totalDotBallsBowled` is the sum of its players' `dotBallsBowled` and its
`totalTreesPlanted` is the sum of its players' `treesBowling`. -/
theorem team_totals_eq_player_sums :
    ∀ (ts : String) (input : List Payload) (t : TeamStats),
      t ∈ (processMatchData ts input).teams →
      t.totalDotBallsBowled = (t.players.map PlayerStats.dotBallsBowled).sum ∧
      t.totalTreesPlanted = (t.players.map PlayerStats.treesBowling).sum := by
  intro ts input t ht
  obtain ⟨h1, h2, _⟩ := processMatchData_wf ts input t ht
  exact ⟨h1, h2⟩

/-- Witness for C5 on the aggregated output of a concrete one-innings input. -/
theorem team_totals_eq_player_sums_witness :
    sampleAggTeam ∈ (processMatchData "ts" [samplePayload]).teams ∧
    (sampleAggTeam.totalDotBallsBowled
        = (sampleAggTeam.players.map PlayerStats.dotBallsBowled).sum ∧
     sampleAggTeam.totalTreesPlanted
        = (sampleAggTeam.players.map PlayerStats.treesBowling).sum) :=
  ⟨by decide, team_totals_eq_player_sums "ts" [samplePayload] sampleAggTeam (by decide)⟩

/-- C6: player names are pairwise distinct in every aggregated team, and
two bowler entries resolving to the same name accumulate into a single
`PlayerStats` whose dot balls and trees are the sums of both entries. -/
theorem same_name_merges_and_names_unique :
    (∀ (ts : String) (input : List Payload) (t : TeamStats),
        t ∈ (processMatchData ts input).teams →
        (t.players.map PlayerStats.name).Nodup) ∧
    (∀ (t : TeamStats) (b1 b2 : BowlerEntry),
        resolvedName b1 = resolvedName b2 →
        (∀ p ∈ t.players, p.name ≠ resolvedName b1) →
        (processBowler (processBowler t b1) b2).players.length = t.players.length + 1 ∧
        (processBowler (processBowler t b1) b2).players.filter
            (fun p => p.name = resolvedName b1) =
          [{ name := resolvedName b1,
             dotBallsBowled := dotBallsOf b1 + dotBallsOf b2,
             dotBallsPlayed := 0,
             treesBowling := dotBallsOf b1 * TREES_PER_DOT_BALL
               + dotBallsOf b2 * TREES_PER_DOT_BALL }]) := by
  constructor
  · intro ts input t ht
    exact (processMatchData_wf ts input t ht).2.2
  · intro t b1 b2 hn hnotin
    have hmem1 : ¬ t.players.any (fun p => p.name = resolvedName b1) = true := by
      intro hc
      rcases List.any_eq_true.1 hc with ⟨x, hx, hxn⟩
      exact hnotin x hx (by simpa using hxn)
    have hstep1 := processBowler_neg_players t b1 hmem1
    have hmem2 : ((processBowler t b1).players.any (fun p => p.name = resolvedName b2)) = true := by
      rw [hstep1]
      exact List.any_eq_true.2
        ⟨{ name := resolvedName b1, dotBallsBowled := dotBallsOf b1, dotBallsPlayed := 0,
           treesBowling := dotBallsOf b1 * TREES_PER_DOT_BALL }, by simp, by simp [hn]⟩
    have hnotin2 : ∀ p ∈ t.players, p.name ≠ resolvedName b2 := by
      intro p hp
      rw [← hn]
      exact hnotin p hp
    have hstep2 := processBowler_pos_players (processBowler t b1) b2 hmem2
    have hupd : addToPlayer (resolvedName b2) (dotBallsOf b2)
          (dotBallsOf b2 * TREES_PER_DOT_BALL) (processBowler t b1).players =
        t.players ++ [{ name := resolvedName b1,
                        dotBallsBowled := dotBallsOf b1 + dotBallsOf b2,
                        dotBallsPlayed := 0,
                        treesBowling := dotBallsOf b1 * TREES_PER_DOT_BALL
                          + dotBallsOf b2 * TREES_PER_DOT_BALL }] := by
      rw [hstep1, addToPlayer_append_of_not_mem _ _ _ _ _ hnotin2]
      simp [addToPlayer, hn]
    constructor
    · rw [hstep2, hupd]
      simp
    · rw [hstep2, hupd]
      rw [List.filter_append]
      have hfl : t.players.filter (fun p => p.name = resolvedName b1) = [] := by
        rw [List.filter_eq_nil_iff]
        intro p hp
        simpa using hnotin p hp
      rw [hfl]
      simp

/-- Witness for C6: the uniqueness half on a concrete aggregated output,
and the merge half on two concrete same-name entries. -/
theorem same_name_merges_and_names_unique_witness :
    (sampleAggTeam ∈ (processMatchData "ts" [samplePayload]).teams →
      (sampleAggTeam.players.map PlayerStats.name).Nodup) ∧
    ((processBowler (processBowler sampleTeam sampleBowlerA) sampleBowlerB).players.length
        = sampleTeam.players.length + 1 ∧
     (processBowler (processBowler sampleTeam sampleBowlerA) sampleBowlerB).players.filter
         (fun p => p.name = resolvedName sampleBowlerA) =
       [{ name := resolvedName sampleBowlerA,
          dotBallsBowled := dotBallsOf sampleBowlerA + dotBallsOf sampleBowlerB,
          dotBallsPlayed := 0,
          treesBowling := dotBallsOf sampleBowlerA * TREES_PER_DOT_BALL
            + dotBallsOf sampleBowlerB * TREES_PER_DOT_BALL }]) :=
  ⟨fun h => same_name_merges_and_names_unique.1 "ts" [samplePayload] sampleAggTeam h,
   same_name_merges_and_names_unique.2 sampleTeam sampleBowlerA sampleBowlerB (by decide)
     (by decide)⟩

/-- C7: a bowler entry whose `DotBalls` field is absent or non-numeric
contributes 0 dot balls and 0 trees to the team totals and to the players'
aggregate totals (and the total model function never throws). -/
theorem missing_dotballs_contribute_zero :
    ∀ (t : TeamStats) (b : BowlerEntry),
      b.DotBalls = none ∨ (∃ s, b.DotBalls = some s ∧ parseIntJS s = none) →
      dotBallsOf b = 0 ∧
      (processBowler t b).totalDotBallsBowled = t.totalDotBallsBowled ∧
      (processBowler t b).totalTreesPlanted = t.totalTreesPlanted ∧
      playersDotSum (processBowler t b).players = playersDotSum t.players ∧
      playersTreeSum (processBowler t b).players = playersTreeSum t.players := by
  intro t b hb
  have hd : dotBallsOf b = 0 := by
    rcases hb with h | ⟨s, hs, hps⟩
    · simp [dotBallsOf, h]
    · simp [dotBallsOf, hs, hps]
  refine ⟨hd, ?_, ?_, ?_, ?_⟩
  · rw [processBowler_dot, hd]
    ring
  · rw [processBowler_trees, hd]
    ring
  · by_cases hmem : t.players.any (fun p => p.name = resolvedName b) = true
    · rw [processBowler_pos_players t b hmem, addToPlayer_dotSum _ _ _ _ hmem, hd]
      ring
    · rw [processBowler_neg_players t b hmem, hd]
      simp [playersDotSum]
  · by_cases hmem : t.players.any (fun p => p.name = resolvedName b) = true
    · rw [processBowler_pos_players t b hmem, addToPlayer_treeSum _ _ _ _ hmem, hd]
      ring
    · rw [processBowler_neg_players t b hmem, hd]
      simp [playersTreeSum]

/-- Witness for C7 at a concrete entry whose `DotBalls` is `"abc"`. -/
theorem missing_dotballs_contribute_zero_witness :
    (sampleBowlerBad.DotBalls = none ∨
      (∃ s, sampleBowlerBad.DotBalls = some s ∧ parseIntJS s = none)) ∧
    (dotBallsOf sampleBowlerBad = 0 ∧
     (processBowler sampleTeam sampleBowlerBad).totalDotBallsBowled
        = sampleTeam.totalDotBallsBowled ∧
     (processBowler sampleTeam sampleBowlerBad).totalTreesPlanted
        = sampleTeam.totalTreesPlanted ∧
     playersDotSum (processBowler sampleTeam sampleBowlerBad).players
        = playersDotSum sampleTeam.players ∧
     playersTreeSum (processBowler sampleTeam sampleBowlerBad).players
        = playersTreeSum sampleTeam.players) :=
  ⟨Or.inr ⟨"abc", rfl, by decide⟩,
   missing_dotballs_contribute_zero sampleTeam sampleBowlerBad
     (Or.inr ⟨"abc", rfl, by decide⟩)⟩

/-- C10: the aggregated team list is a pure function of the decoded
innings input; the wall-clock timestamp parameter (the only impure input
of `processMatchData`) does not influence it, so two independent runs over
the same input agree on all team and player totals. -/
theorem processMatchData_pure_mod_timestamp :
    ∀ (ts1 ts2 : String) (input : List Payload),
      (processMatchData ts1 input).teams = (processMatchData ts2 input).teams := by
  intro ts1 ts2 input
  rfl

/-! ## Claims about the Feed Fetcher and Decoder -/

/-- C3: when the Innings1 feed fails and only the Innings2 feed decodes
(to a payload carrying an `Innings2` section but no `Innings1`),
`fetchMatchJson` returns the one-element list with that payload, and
`processMatchData` then inspects it at innings index 0 under the
`Innings1` key, finds nothing, and returns an empty team list — the
surviving innings is silently discarded. -/
theorem innings2_only_payload_discarded :
    ∀ (net : String → FetchOutcome) (parse : String → Option Payload) (matchId ts : String)
      (p : Payload) (sec : InningsSection),
      decodeResponse parse (net ((buildJsonUrl matchId).getD 0 "")) = none →
      decodeResponse parse (net ((buildJsonUrl matchId).getD 1 "")) = some p →
      p.Innings1 = none → p.Innings2 = some sec →
      fetchMatchJson net parse matchId = Except.ok [p] ∧
      (processMatchData ts [p]).teams = [] := by
  intro net parse matchId ts p sec h1 h2 hI1 _
  constructor
  · unfold fetchMatchJson
    simp only [buildJsonUrl, List.getD_cons_zero, List.getD_cons_succ] at h1 h2
    simp [buildJsonUrl, h1, h2]
  · simp [processMatchData, List.enum, processInnings, hI1]

/-- Witness for C3: the concrete network where only the Innings2 feed of
match 1832 answers. -/
theorem innings2_only_payload_discarded_witness :
    fetchMatchJson sampleNet sampleParse "1832" = Except.ok [sampleInnings2Payload] ∧
    (processMatchData "ts" [sampleInnings2Payload]).teams = [] :=
  innings2_only_payload_discarded sampleNet sampleParse "1832" "ts" sampleInnings2Payload
    { BattingCard := some [sampleBatter], BowlingCard := some [sampleBowlerA] }
    (by decide) (by decide) rfl rfl

/-- C8: a response body on which the JSONP envelope pattern fails to
match decodes to no data, and such a failure is confined to its own URL:
the fetch result is then determined by the sibling URL's decode alone. -/
theorem bad_envelope_yields_none :
    ∀ (parse : String → Option Payload) (body : String),
      jsonpExtract body = none →
      decodeResponse parse (FetchOutcome.okBody body) = none ∧
      (∀ (net : String → FetchOutcome) (matchId : String),
        net ((buildJsonUrl matchId).getD 0 "") = FetchOutcome.okBody body →
        fetchMatchJson net parse matchId =
          (match decodeResponse parse (net ((buildJsonUrl matchId).getD 1 "")) with
           | none => Except.error ("Failed to fetch any valid data for match " ++ matchId)
           | some p => Except.ok [p])) := by
  intro parse body h
  have hdec : decodeResponse parse (FetchOutcome.okBody body) = none := by
    simp [decodeResponse, h]
  refine ⟨hdec, ?_⟩
  intro net matchId hnet
  have h1 : decodeResponse parse (net ((buildJsonUrl matchId).getD 0 "")) = none := by
    rw [hnet]
    exact hdec
  unfold fetchMatchJson
  cases hx : decodeResponse parse (net ((buildJsonUrl matchId).getD 1 "")) with
  | none =>
    simp only [buildJsonUrl, List.getD_cons_zero, List.getD_cons_succ] at h1 hx
    simp [buildJsonUrl, h1, hx]
  | some p =>
    simp only [buildJsonUrl, List.getD_cons_zero, List.getD_cons_succ] at h1 hx
    simp [buildJsonUrl, h1, hx]

/-- Witness for C8 on the body "garbage" (no parentheses at all). -/
theorem bad_envelope_yields_none_witness :
    jsonpExtract "garbage" = none ∧
    decodeResponse (fun _ => none) (FetchOutcome.okBody "garbage") = none ∧
    fetchMatchJson (fun _ => FetchOutcome.okBody "garbage") (fun _ => none) "m"
      = Except.error ("Failed to fetch any valid data for match " ++ "m") := by
  have h := bad_envelope_yields_none (fun _ => none) "garbage" (by decide)
  refine ⟨by decide, h.1, ?_⟩
  have h2 := h.2 (fun _ => FetchOutcome.okBody "garbage") "m" rfl
  have h3 : decodeResponse (fun _ => none)
      ((fun _ => FetchOutcome.okBody "garbage") ((buildJsonUrl "m").getD 1 ""))
        = (none : Option Payload) := by decide
  rw [h3] at h2
  exact h2

/-- C9: `fetchMatchJson` signals an error exactly when every feed URL of
the match yields no data, and otherwise returns the non-empty list of the
successfully decoded payloads. -/
theorem fetchMatchJson_fails_iff_all_fail :
    ∀ (net : String → FetchOutcome) (parse : String → Option Payload) (matchId : String),
      ((∃ e, fetchMatchJson net parse matchId = Except.error e) ↔
        ∀ url ∈ buildJsonUrl matchId, decodeResponse parse (net url) = none) ∧
      (∀ l, fetchMatchJson net parse matchId = Except.ok l →
        l ≠ [] ∧
        l = (buildJsonUrl matchId).filterMap (fun url => decodeResponse parse (net url))) := by
  intro net parse matchId
  cases h1 : decodeResponse parse
      (net ("https://ipl-stats-sports-mechanic.s3.ap-south-1.amazonaws.com/ipl/feeds/"
        ++ matchId ++ "-Innings1.js")) <;>
    cases h2 : decodeResponse parse
        (net ("https://ipl-stats-sports-mechanic.s3.ap-south-1.amazonaws.com/ipl/feeds/"
          ++ matchId ++ "-Innings2.js")) <;>
      simp [fetchMatchJson, buildJsonUrl, h1, h2]

/-- Witness for C9: both URLs failing yields an error; the sample network
with one live URL yields exactly its decoded payload. -/
theorem fetchMatchJson_fails_iff_all_fail_witness :
    (∃ e, fetchMatchJson (fun _ => FetchOutcome.netError) (fun _ => none) "m"
      = Except.error e) ∧
    ([sampleInnings2Payload] ≠ [] ∧
      [sampleInnings2Payload]
        = (buildJsonUrl "1832").filterMap (fun url => decodeResponse sampleParse (sampleNet url))) :=
  ⟨(fetchMatchJson_fails_iff_all_fail (fun _ => FetchOutcome.netError) (fun _ => none) "m").1.mpr
     (by decide),
   (fetchMatchJson_fails_iff_all_fail sampleNet sampleParse "1832").2
     [sampleInnings2Payload] rfl⟩

/-! ## Claims about the Scheduling Driver -/

/-- C1 (counterexample): with no match skipped and the first URL's
pipeline throwing, the handler's single top-level `try`/`catch` ends the
loop — the second URL's pipeline is never invoked, contradicting the
claim that a per-match failure leaves every subsequent URL processed. -/
theorem scheduled_counterexample :
    scheduledRun (fun _ => false)
        (fun url => url = "https://www.iplt20.com/match/2025/1832")
        ["https://www.iplt20.com/match/2025/1832", "https://www.iplt20.com/match/2025/1833"]
      = ["https://www.iplt20.com/match/2025/1832"] ∧
    "https://www.iplt20.com/match/2025/1833" ∉
      scheduledRun (fun _ => false)
        (fun url => url = "https://www.iplt20.com/match/2025/1832")
        ["https://www.iplt20.com/match/2025/1832", "https://www.iplt20.com/match/2025/1833"] := by
  constructor
  · rfl
  · decide

/-- C1 (amended): a per-match failure is swallowed only by the top-level
`try`/`catch` wrapping the whole URL loop, so the handler completes
without throwing, but the pipeline runs for no URL after the first
non-skipped failing one: it runs exactly for the non-skipped URLs before
the failure and for the failing URL itself. -/
theorem scheduled_aborts_after_failure :
    ∀ (skip throwsOn : String → Bool) (l1 : List String) (u : String) (l2 : List String),
      (∀ v ∈ l1, skip (extractMatchId v) = true ∨ throwsOn v = false) →
      skip (extractMatchId u) = false →
      throwsOn u = true →
      scheduledRun skip throwsOn (l1 ++ u :: l2)
        = l1.filter (fun v => !skip (extractMatchId v)) ++ [u] := by
  intro skip throwsOn l1
  induction l1 with
  | nil =>
    intro u l2 _ hs ht
    simp [scheduledRun, hs, ht]
  | cons v l1 ih =>
    intro u l2 hpre hs ht
    have hrest := ih u l2 (fun w hw => hpre w (List.mem_cons_of_mem _ hw)) hs ht
    rcases hpre v (List.mem_cons_self v l1) with hskip | hok
    · rw [List.cons_append]
      simp only [scheduledRun, hskip, if_true]
      rw [hrest]
      simp [hskip]
    · by_cases hskipv : skip (extractMatchId v) = true
      · rw [List.cons_append]
        simp only [scheduledRun, hskipv, if_true]
        rw [hrest]
        simp [hskipv]
      · have hf : skip (extractMatchId v) = false := by
          simpa using hskipv
        rw [List.cons_append]
        simp only [scheduledRun, hf, hok, Bool.false_eq_true, if_false]
        rw [hrest]
        simp [hf]

/-- Witness for the amended C1: URL 1832 is skipped by the daily dedup,
URL 1833 throws, URL 1834 is never attempted. -/
theorem scheduled_aborts_after_failure_witness :
    (∀ v ∈ ["https://www.iplt20.com/match/2025/1832"],
        (fun s => s = "1832") (extractMatchId v) = true ∨
        (fun url => url = "https://www.iplt20.com/match/2025/1833") v = false) ∧
    scheduledRun (fun s => s = "1832")
        (fun url => url = "https://www.iplt20.com/match/2025/1833")
        (["https://www.iplt20.com/match/2025/1832"] ++
          "https://www.iplt20.com/match/2025/1833" :: ["https://www.iplt20.com/match/2025/1834"])
      = ["https://www.iplt20.com/match/2025/1832"].filter
          (fun v => !(fun s => s = "1832") (extractMatchId v)) ++
        ["https://www.iplt20.com/match/2025/1833"] :=
  ⟨by decide,
   scheduled_aborts_after_failure (fun s => s = "1832")
     (fun url => url = "https://www.iplt20.com/match/2025/1833")
     ["https://www.iplt20.com/match/2025/1832"]
     "https://www.iplt20.com/match/2025/1833"
     ["https://www.iplt20.com/match/2025/1834"]
     (by decide) (by decide) (by decide)⟩

/-! ## Claims about the Persistence Adapter -/

theorem storePlayer_summary (matchId teamId : String) (db : Database) (p : PlayerStats) :
    (storePlayer matchId teamId db p).summary = db.summary := rfl

theorem playersFold_summary (matchId teamId : String) (ps : List PlayerStats) :
    ∀ db : Database, (ps.foldl (storePlayer matchId teamId) db).summary = db.summary := by
  induction ps with
  | nil => intro db; rfl
  | cons p ps ih =>
    intro db
    rw [List.foldl_cons, ih, storePlayer_summary]

theorem storeTeam_summary (matchId ts : String) (db : Database) (team : TeamStats) :
    (storeTeam matchId ts db team).summary
      = upsertSummary db.summary team.name team.totalTreesPlanted ts := by
  unfold storeTeam
  rw [playersFold_summary]

theorem teamsFold_summary (matchId ts : String) (teams : List TeamStats) :
    ∀ db : Database,
      (teams.foldl (storeTeam matchId ts) db).summary
        = teams.foldl (fun s t => upsertSummary s t.name t.totalTreesPlanted ts) db.summary := by
  induction teams with
  | nil => intro db; rfl
  | cons t teams ih =>
    intro db
    rw [List.foldl_cons, List.foldl_cons, ih, storeTeam_summary]

theorem storeMatchData_summary (md : MatchData) (url ts : String) (db : Database) :
    (storeMatchData md url ts db).summary
      = md.teams.foldl (fun s t => upsertSummary s t.name t.totalTreesPlanted ts) db.summary := by
  unfold storeMatchData
  rw [teamsFold_summary]

theorem summaryFind_map_update_ne (s : List SummaryRow) (tid tid' : String) (v : Int) (ts : String)
    (h : tid' ≠ tid) :
    summaryFind (s.map (fun r =>
        if r.team_id = tid' then
          { r with total_trees_planted := r.total_trees_planted + v, last_updated := ts }
        else r)) tid
      = summaryFind s tid := by
  induction s with
  | nil => rfl
  | cons r rs ih =>
    by_cases hr : r.team_id = tid'
    · simp only [List.map_cons, hr, if_true, summaryFind]
      rw [List.find?_cons_of_neg _ (by simp [hr]; exact h),
          List.find?_cons_of_neg _ (by simp [hr]; exact h)]
      exact ih
    · by_cases ht : r.team_id = tid
      · simp only [List.map_cons, hr, if_false, summaryFind]
        rw [List.find?_cons_of_pos _ (by simpa using ht), List.find?_cons_of_pos _ (by simpa using ht)]
      · simp only [List.map_cons, hr, if_false, summaryFind]
        rw [List.find?_cons_of_neg _ (by simpa using ht), List.find?_cons_of_neg _ (by simpa using ht)]
        exact ih

theorem summaryFind_map_update_self (s : List SummaryRow) (tid : String) (v : Int) (ts : String)
    (hany : s.any (fun r => r.team_id = tid) = true) :
    summaryFind (s.map (fun r =>
        if r.team_id = tid then
          { r with total_trees_planted := r.total_trees_planted + v, last_updated := ts }
        else r)) tid
      = some ((summaryFind s tid).getD 0 + v) := by
  induction s with
  | nil => simp at hany
  | cons r rs ih =>
    by_cases hr : r.team_id = tid
    · simp only [List.map_cons, hr, if_true, summaryFind]
      rw [List.find?_cons_of_pos _ (by simp), List.find?_cons_of_pos _ (by simpa using hr)]
      simp
    · have hany' : rs.any (fun r => r.team_id = tid) = true := by
        simpa [hr] using hany
      simp only [List.map_cons, hr, if_false, summaryFind]
      rw [List.find?_cons_of_neg _ (by simpa using hr), List.find?_cons_of_neg _ (by simpa using hr)]
      exact ih hany'

theorem summaryFind_upsert_ne (s : List SummaryRow) (tid tid' : String) (v : Int) (ts : String)
    (h : tid' ≠ tid) :
    summaryFind (upsertSummary s tid' v ts) tid = summaryFind s tid := by
  unfold upsertSummary
  split
  · exact summaryFind_map_update_ne s tid tid' v ts h
  · unfold summaryFind
    rw [List.find?_append]
    cases hf : s.find? (fun r => r.team_id = tid) with
    | some r => simp [hf]
    | none =>
      rw [List.find?_cons_of_neg _ (by simpa using h)]
      simp [hf]

theorem summaryFind_upsert_self (s : List SummaryRow) (tid : String) (v : Int) (ts : String) :
    summaryFind (upsertSummary s tid v ts) tid = some ((summaryFind s tid).getD 0 + v) := by
  unfold upsertSummary
  split
  case isTrue hany => exact summaryFind_map_update_self s tid v ts hany
  case isFalse hany =>
    have hf : s.find? (fun r => r.team_id = tid) = none := by
      rw [List.find?_eq_none]
      intro x hx hxe
      exact hany (List.any_eq_true.2 ⟨x, hx, hxe⟩)
    unfold summaryFind
    rw [List.find?_append, hf]
    simp

theorem summaryFind_foldl_ne (ts : String) (l : List TeamStats) (tid : String)
    (h : ∀ x ∈ l, x.name ≠ tid) :
    ∀ s, summaryFind (l.foldl (fun s t => upsertSummary s t.name t.totalTreesPlanted ts) s) tid
      = summaryFind s tid := by
  induction l with
  | nil => intro s; rfl
  | cons x l ih =>
    intro s
    rw [List.foldl_cons, ih (fun y hy => h y (List.mem_cons_of_mem _ hy)),
        summaryFind_upsert_ne _ _ _ _ _ (h x (List.mem_cons_self x l))]

theorem summaryFind_foldl_once (ts : String) (l1 : List TeamStats) (team : TeamStats)
    (l2 : List TeamStats) (h1 : ∀ x ∈ l1, x.name ≠ team.name)
    (h2 : ∀ x ∈ l2, x.name ≠ team.name) :
    ∀ s, summaryFind ((l1 ++ team :: l2).foldl
        (fun s t => upsertSummary s t.name t.totalTreesPlanted ts) s) team.name
      = some ((summaryFind s team.name).getD 0 + team.totalTreesPlanted) := by
  induction l1 with
  | nil =>
    intro s
    rw [List.nil_append, List.foldl_cons, summaryFind_foldl_ne ts l2 team.name h2,
        summaryFind_upsert_self]
  | cons x l1 ih =>
    intro s
    rw [List.cons_append, List.foldl_cons, ih (fun y hy => h1 y (List.mem_cons_of_mem _ hy)),
        summaryFind_upsert_ne _ _ _ _ _ (h1 x (List.mem_cons_self x l1))]

/-- C2: `storeMatchData` adds each team's `totalTreesPlanted` to that
team's `TreePlantingSummary` running total (inserting the row with that
value when absent), so storing the same `MatchData` twice raises the
total by twice the team value — the summary write is additive, not
idempotent. -/
theorem storeMatchData_summary_additive :
    ∀ (md : MatchData) (url1 url2 ts1 ts2 : String) (db : Database) (team : TeamStats),
      (md.teams.map TeamStats.name).Nodup → team ∈ md.teams →
      summaryTotal (storeMatchData md url1 ts1 db) team.name
        = some ((summaryTotal db team.name).getD 0 + team.totalTreesPlanted) ∧
      summaryTotal (storeMatchData md url2 ts2 (storeMatchData md url1 ts1 db)) team.name
        = some ((summaryTotal db team.name).getD 0
                 + team.totalTreesPlanted + team.totalTreesPlanted) := by
  intro md url1 url2 ts1 ts2 db team hnodup hmem
  obtain ⟨l1, l2, hsplit⟩ := List.append_of_mem hmem
  have hnd := hnodup
  rw [hsplit, List.map_append, List.map_cons] at hnd
  rcases List.nodup_append.1 hnd with ⟨_, hB, hdisj⟩
  have hteamNotIn : team.name ∉ l2.map TeamStats.name := (List.nodup_cons.1 hB).1
  have hn1 : ∀ x ∈ l1, x.name ≠ team.name := by
    intro x hx he
    exact hdisj (List.mem_map_of_mem _ hx) (by rw [he]; exact List.mem_cons_self _ _)
  have hn2 : ∀ x ∈ l2, x.name ≠ team.name := by
    intro x hx he
    exact hteamNotIn (he ▸ List.mem_map_of_mem _ hx)
  have key : ∀ (url ts : String) (d : Database),
      summaryTotal (storeMatchData md url ts d) team.name
        = some ((summaryTotal d team.name).getD 0 + team.totalTreesPlanted) := by
    intro url ts d
    show summaryFind (storeMatchData md url ts d).summary team.name = _
    rw [storeMatchData_summary, hsplit]
    exact summaryFind_foldl_once ts l1 team l2 hn1 hn2 d.summary
  refine ⟨key url1 ts1 db, ?_⟩
  rw [key url2 ts2 (storeMatchData md url1 ts1 db), key url1 ts1 db]
  simp

/-- Witness for C2: storing a one-team `MatchData` (90 trees) into the
empty database once and twice. -/
theorem storeMatchData_summary_additive_witness :
    ((sampleMatchData.teams.map TeamStats.name).Nodup ∧ sampleAggTeam ∈ sampleMatchData.teams) ∧
    (summaryTotal (storeMatchData sampleMatchData "url" "t1" emptyDb) sampleAggTeam.name
        = some ((summaryTotal emptyDb sampleAggTeam.name).getD 0
                 + sampleAggTeam.totalTreesPlanted) ∧
     summaryTotal (storeMatchData sampleMatchData "url" "t2"
          (storeMatchData sampleMatchData "url" "t1" emptyDb)) sampleAggTeam.name
        = some ((summaryTotal emptyDb sampleAggTeam.name).getD 0
                 + sampleAggTeam.totalTreesPlanted + sampleAggTeam.totalTreesPlanted)) :=
  ⟨⟨by decide, by decide⟩,
   storeMatchData_summary_additive sampleMatchData "url" "url" "t1" "t2" emptyDb sampleAggTeam
     (by decide) (by decide)⟩

end CricScraper
